import Mathlib

set_option maxRecDepth 4000

/-! Verification development for the Neuraxle hierarchical experiment
repository and trial-execution coordination layer: the location-addressed
data model (Root, Project, Client, Round, Trial, TrialSplit, MetricResults),
the scoped-location addressing, serialization, the trial lifecycle state
machine, the scoped execution context, scoped logging, and the deprecation
warning module. -/

/-- Modelled from the spec: one identifier inside a ScopedLocation. The spec
fixes the level types as project_name (string), client_name (string),
round_number (int), trial_number (int), split_number (int),
metric_name (string), so an identifier is either a string or a number. -/
inductive SLId where
  | str (s : String)
  | num (n : Nat)
deriving DecidableEq, Repr

/-- Modelled from the spec: a ScopedLocation is an ordered sequence of up to
6 identifiers, one per level; the class itself is in the repository file
neuraxle/metaopt/data/vanilla.py which is not part of the sources here. -/
abbrev ScopedLocation := List SLId

/-- Modelled from the spec: the length of a location, as in len(L). -/
def slLen (L : ScopedLocation) : Nat := L.length

/-- Modelled from the spec: slicing a location to depth d yields the prefix
of length d, as in L.slice(d) or L[:d]. -/
def slSlice (L : ScopedLocation) (d : Nat) : ScopedLocation := L.take d

/-- Modelled from the spec: pop() removes the last level and fails if the
location is already empty. -/
def slPop (L : ScopedLocation) : Option ScopedLocation :=
  if L = [] then none else some L.dropLast

/-- Boolean prefix test on locations. -/
def slIsPrefixOf : ScopedLocation → ScopedLocation → Bool
  | [], _ => true
  | _ :: _, [] => false
  | a :: as, b :: bs => a = b && slIsPrefixOf as bs

/-- Modelled from the spec: the six dataclass kinds plus the Root, one per
tree level. -/
inductive DataclassKind where
  | root
  | project
  | client
  | round
  | trial
  | split
  | metric
deriving DecidableEq, Repr

/-- Modelled from the spec: the deterministic kind-to-depth mapping
(Root=0, Project=1, Client=2, Round=3, Trial=4, TrialSplit=5,
MetricResults=6). -/
def DataclassKind.depth : DataclassKind → Nat
  | .root => 0
  | .project => 1
  | .client => 2
  | .round => 3
  | .trial => 4
  | .split => 5
  | .metric => 6

/-- Modelled from the spec: the kind whose depth is the given number. -/
def kindAtDepth : Nat → DataclassKind
  | 0 => .root
  | 1 => .project
  | 2 => .client
  | 3 => .round
  | 4 => .trial
  | 5 => .split
  | _ => .metric

/-- Modelled from the spec: slicing a location to a dataclass kind yields
the prefix ending at that kind's depth. -/
def slSliceKind (L : ScopedLocation) (k : DataclassKind) : ScopedLocation :=
  slSlice L k.depth

/-- Validity of a location suffix starting below a MetricResults node:
MetricResults is a leaf, so only the empty suffix is valid. -/
def validFromMetric : List SLId → Bool
  | [] => true
  | _ => false

/-- Validity of a location suffix starting below a TrialSplit node: the next
identifier, when present, is a metric name (a string). -/
def validFromSplit : List SLId → Bool
  | [] => true
  | .str _ :: rest => validFromMetric rest
  | _ => false

/-- Validity of a location suffix starting below a Trial node: the next
identifier, when present, is a split number. -/
def validFromTrial : List SLId → Bool
  | [] => true
  | .num _ :: rest => validFromSplit rest
  | _ => false

/-- Validity of a location suffix starting below a Round node: the next
identifier, when present, is a trial number. -/
def validFromRound : List SLId → Bool
  | [] => true
  | .num _ :: rest => validFromTrial rest
  | _ => false

/-- Validity of a location suffix starting below a Client node: the next
identifier, when present, is a round number. -/
def validFromClient : List SLId → Bool
  | [] => true
  | .num _ :: rest => validFromRound rest
  | _ => false

/-- Validity of a location suffix starting below a Project node: the next
identifier, when present, is a client name (a string). -/
def validFromProject : List SLId → Bool
  | [] => true
  | .str _ :: rest => validFromClient rest
  | _ => false

/-- Modelled from the spec: a whole location is valid when it is a typed
prefix of the six levels, starting at the Root; level k may only be set when
all levels before it are set, which the sequential representation enforces. -/
def slValid : ScopedLocation → Bool
  | [] => true
  | .str _ :: rest => validFromProject rest
  | _ => false

/-- Modelled from the spec: the trial lifecycle states
PLANNED, RUNNING, SUCCESS, FAILED, ABORTED. -/
inductive TrialStatus where
  | planned
  | running
  | success
  | failed
  | aborted
deriving DecidableEq, Repr

/-- Modelled from the spec: the admissible outcomes of end(outcome), namely
SUCCESS, FAILED or ABORTED. -/
inductive TrialOutcome where
  | success
  | failed
  | aborted
deriving DecidableEq, Repr

/-- The status a given outcome moves a node to. -/
def TrialOutcome.toStatus : TrialOutcome → TrialStatus
  | .success => .success
  | .failed => .failed
  | .aborted => .aborted

/-- Whether a status is terminal. -/
def TrialStatus.isTerminal : TrialStatus → Bool
  | .planned => false
  | .running => false
  | .success => true
  | .failed => true
  | .aborted => true

/-- Modelled from the spec: the error taxonomy of the repository layer. -/
inductive AutoMLError where
  | invalidLocationError
  | notFoundError
  | invalidTransitionError
  | serializationError
  | concurrentWriteConflict
deriving DecidableEq, Repr

/-- Modelled from the spec: the MetricResultsDataclass leaf, holding
metric_name, ordered train and validation value sequences, and the
higher_score_is_better flag. Metric values are modelled as integers (the
example values in the sources are all small integers). -/
structure MetricResultsDataclass where
  metric_name : String
  validation_values : List Int
  train_values : List Int
  higher_score_is_better : Bool
deriving DecidableEq, Repr

/-- Modelled from the spec: the TrialSplitDataclass, keyed by split_number,
with its metric results keyed by metric name, a status and start and end
timestamps. Timestamps are modelled as abstract naturals. -/
structure TrialSplitDataclass where
  split_number : Nat
  metric_results : List (String × MetricResultsDataclass)
  status : TrialStatus
  start_time : Option Nat
  end_time : Option Nat
deriving DecidableEq, Repr

/-- Modelled from the spec: the TrialDataclass, keyed by trial_number, with
hyperparams (a mapping from names to values, values modelled as integers),
its ordered sequence of validation splits, a status and timestamps. -/
structure TrialDataclass where
  trial_number : Nat
  hyperparams : List (String × Int)
  validation_splits : List TrialSplitDataclass
  status : TrialStatus
  start_time : Option Nat
  end_time : Option Nat
deriving DecidableEq, Repr

/-- Modelled from the spec: the RoundDataclass, keyed by round_number, with
its ordered sequence of trials. -/
structure RoundDataclass where
  round_number : Nat
  trials : List TrialDataclass
deriving DecidableEq, Repr

/-- Modelled from the spec: the ClientDataclass, keyed by client_name, with
its rounds keyed by round number and the main_metric_name field. -/
structure ClientDataclass where
  client_name : String
  main_metric_name : String
  rounds : List RoundDataclass
deriving DecidableEq, Repr

/-- Modelled from the spec: the ProjectDataclass, keyed by project_name,
with its clients keyed by client name. -/
structure ProjectDataclass where
  project_name : String
  clients : List (String × ClientDataclass)
deriving DecidableEq, Repr

/-- Modelled from the spec: the RootDataclass, the tree root, with its
projects keyed by project name. -/
structure RootDataclass where
  projects : List (String × ProjectDataclass)
deriving DecidableEq, Repr

/-- Modelled from the spec: the sum of the seven node kinds, used as the
result of resolving a location against the tree. -/
inductive BaseDataclass where
  | root (dc : RootDataclass)
  | project (dc : ProjectDataclass)
  | client (dc : ClientDataclass)
  | round (dc : RoundDataclass)
  | trial (dc : TrialDataclass)
  | split (dc : TrialSplitDataclass)
  | metric (dc : MetricResultsDataclass)
deriving DecidableEq, Repr

/-- The kind of a node. -/
def BaseDataclass.kindOf : BaseDataclass → DataclassKind
  | .root _ => .root
  | .project _ => .project
  | .client _ => .client
  | .round _ => .round
  | .trial _ => .trial
  | .split _ => .split
  | .metric _ => .metric

/-- The depth of a node, through the fixed kind-to-depth mapping. -/
def BaseDataclass.depthOf (dc : BaseDataclass) : Nat := dc.kindOf.depth

/-- Modelled from the spec: get_id() reads the key a node uses in its
parent collection; the Root has none. -/
def BaseDataclass.getId : BaseDataclass → Option SLId
  | .root _ => none
  | .project dc => some (.str dc.project_name)
  | .client dc => some (.str dc.client_name)
  | .round dc => some (.num dc.round_number)
  | .trial dc => some (.num dc.trial_number)
  | .split dc => some (.num dc.split_number)
  | .metric dc => some (.str dc.metric_name)

/-- Lookup in a name-keyed ordered mapping, as in an OrderedDict. -/
def lookupName (xs : List (String × α)) (k : String) : Option α :=
  match xs with
  | [] => none
  | (k2, v) :: rest => if k2 = k then some v else lookupName rest k

/-- Resolving a location suffix under a MetricResults node (a leaf). -/
def MetricResultsDataclass.getsub (dc : MetricResultsDataclass) :
    List SLId → Except AutoMLError BaseDataclass
  | [] => .ok (.metric dc)
  | _ => .error .invalidLocationError

/-- Resolving a location suffix under a TrialSplit node: the next
identifier is looked up among the metric results by metric name; a missing
key is a NotFoundError. -/
def TrialSplitDataclass.getsub (dc : TrialSplitDataclass) :
    List SLId → Except AutoMLError BaseDataclass
  | [] => .ok (.split dc)
  | .str m :: rest =>
    match lookupName dc.metric_results m with
    | none => .error .notFoundError
    | some mr => mr.getsub rest
  | _ => .error .invalidLocationError

/-- Resolving a location suffix under a Trial node: the next identifier
indexes the ordered sequence of validation splits by split number. -/
def TrialDataclass.getsub (dc : TrialDataclass) :
    List SLId → Except AutoMLError BaseDataclass
  | [] => .ok (.trial dc)
  | .num s :: rest =>
    match dc.validation_splits[s]? with
    | none => .error .notFoundError
    | some ts => ts.getsub rest
  | _ => .error .invalidLocationError

/-- Resolving a location suffix under a Round node: the next identifier
indexes the ordered sequence of trials by trial number. -/
def RoundDataclass.getsub (dc : RoundDataclass) :
    List SLId → Except AutoMLError BaseDataclass
  | [] => .ok (.round dc)
  | .num t :: rest =>
    match dc.trials[t]? with
    | none => .error .notFoundError
    | some tr => tr.getsub rest
  | _ => .error .invalidLocationError

/-- Resolving a location suffix under a Client node: the next identifier
indexes the rounds by round number. -/
def ClientDataclass.getsub (dc : ClientDataclass) :
    List SLId → Except AutoMLError BaseDataclass
  | [] => .ok (.client dc)
  | .num r :: rest =>
    match dc.rounds[r]? with
    | none => .error .notFoundError
    | some rd => rd.getsub rest
  | _ => .error .invalidLocationError

/-- Resolving a location suffix under a Project node: the next identifier
is looked up among the clients by client name. -/
def ProjectDataclass.getsub (dc : ProjectDataclass) :
    List SLId → Except AutoMLError BaseDataclass
  | [] => .ok (.project dc)
  | .str c :: rest =>
    match lookupName dc.clients c with
    | none => .error .notFoundError
    | some cl => cl.getsub rest
  | _ => .error .invalidLocationError

/-- Modelled from the spec: root[location] resolves a location against the
tree and returns the node at that depth; it fails with NotFoundError if any
intermediate key is absent from its parent's child collection. -/
def RootDataclass.getItem (dc : RootDataclass) :
    ScopedLocation → Except AutoMLError BaseDataclass
  | [] => .ok (.root dc)
  | .str p :: rest =>
    match lookupName dc.projects p with
    | none => .error .notFoundError
    | some pr => pr.getsub rest
  | _ => .error .invalidLocationError

/-- Whether every key of a location suffix exists below a TrialSplit. -/
def TrialSplitDataclass.subExists (dc : TrialSplitDataclass) : List SLId → Bool
  | [] => true
  | .str m :: rest =>
    match lookupName dc.metric_results m with
    | none => false
    | some _ => validFromMetric rest
  | _ => false

/-- Whether every key of a location suffix exists below a Trial. -/
def TrialDataclass.subExists (dc : TrialDataclass) : List SLId → Bool
  | [] => true
  | .num s :: rest =>
    match dc.validation_splits[s]? with
    | none => false
    | some ts => ts.subExists rest
  | _ => false

/-- Whether every key of a location suffix exists below a Round. -/
def RoundDataclass.subExists (dc : RoundDataclass) : List SLId → Bool
  | [] => true
  | .num t :: rest =>
    match dc.trials[t]? with
    | none => false
    | some tr => tr.subExists rest
  | _ => false

/-- Whether every key of a location suffix exists below a Client. -/
def ClientDataclass.subExists (dc : ClientDataclass) : List SLId → Bool
  | [] => true
  | .num r :: rest =>
    match dc.rounds[r]? with
    | none => false
    | some rd => rd.subExists rest
  | _ => false

/-- Whether every key of a location suffix exists below a Project. -/
def ProjectDataclass.subExists (dc : ProjectDataclass) : List SLId → Bool
  | [] => true
  | .str c :: rest =>
    match lookupName dc.clients c with
    | none => false
    | some cl => cl.subExists rest
  | _ => false

/-- Whether every key on a location's path exists in its respective parent
child collection, starting from the Root. -/
def RootDataclass.pathExists (dc : RootDataclass) : ScopedLocation → Bool
  | [] => true
  | .str p :: rest =>
    match lookupName dc.projects p with
    | none => false
    | some pr => pr.subExists rest
  | _ => false

/-- Modelled from the spec: start() on a TrialSplit moves PLANNED to
RUNNING and records a start timestamp; it fails with InvalidTransitionError
if the status is not currently PLANNED. The clock is passed explicitly. -/
def TrialSplitDataclass.start (dc : TrialSplitDataclass) (t : Nat) :
    Except AutoMLError TrialSplitDataclass :=
  if dc.status = .planned then
    .ok { dc with status := .running, start_time := some t }
  else .error .invalidTransitionError

/-- Modelled from the spec: end(outcome) on a TrialSplit moves RUNNING to
SUCCESS, FAILED or ABORTED and records an end timestamp; it fails with
InvalidTransitionError if the status is not currently RUNNING. -/
def TrialSplitDataclass.endWith (dc : TrialSplitDataclass) (t : Nat)
    (o : TrialOutcome) : Except AutoMLError TrialSplitDataclass :=
  if dc.status = .running then
    .ok { dc with status := o.toStatus, end_time := some t }
  else .error .invalidTransitionError

/-- Modelled from the spec: start() on a Trial, same state machine as for a
TrialSplit. -/
def TrialDataclass.start (dc : TrialDataclass) (t : Nat) :
    Except AutoMLError TrialDataclass :=
  if dc.status = .planned then
    .ok { dc with status := .running, start_time := some t }
  else .error .invalidTransitionError

/-- Modelled from the spec: end(outcome) on a Trial, same state machine as
for a TrialSplit. -/
def TrialDataclass.endWith (dc : TrialDataclass) (t : Nat)
    (o : TrialOutcome) : Except AutoMLError TrialDataclass :=
  if dc.status = .running then
    .ok { dc with status := o.toStatus, end_time := some t }
  else .error .invalidTransitionError

/-- The default project name of the sources. -/
def DEFAULT_PROJECT : String := "default_project"

/-- The default client name of the sources. -/
def DEFAULT_CLIENT : String := "default_client"

/-- The metric name of the example tree of the sources. -/
def SOME_METRIC_NAME : String := "MAE"

/-- The example MetricResults leaf of the sources. -/
def SOME_METRIC_RESULTS_DATACLASS : MetricResultsDataclass :=
  { metric_name := SOME_METRIC_NAME
    validation_values := [3, 2, 1]
    train_values := [2, 1, 0]
    higher_score_is_better := false }

/-- The example TrialSplit of the sources, before start() and end(). -/
def SOME_TRIAL_SPLIT_PLANNED : TrialSplitDataclass :=
  { split_number := 0
    metric_results := [(SOME_METRIC_NAME, SOME_METRIC_RESULTS_DATACLASS)]
    status := .planned
    start_time := none
    end_time := none }

/-- The example TrialSplit of the sources, started at time 0 and ended with
SUCCESS at time 1. -/
def SOME_TRIAL_SPLIT_DATACLASS : TrialSplitDataclass :=
  { split_number := 0
    metric_results := [(SOME_METRIC_NAME, SOME_METRIC_RESULTS_DATACLASS)]
    status := .success
    start_time := some 0
    end_time := some 1 }

/-- The example Trial of the sources, before start() and end(). -/
def SOME_TRIAL_PLANNED : TrialDataclass :=
  { trial_number := 0
    hyperparams := []
    validation_splits := [SOME_TRIAL_SPLIT_DATACLASS]
    status := .planned
    start_time := none
    end_time := none }

/-- The example Trial of the sources, started at time 0 and ended with
SUCCESS at time 1. -/
def SOME_TRIAL_DATACLASS : TrialDataclass :=
  { trial_number := 0
    hyperparams := []
    validation_splits := [SOME_TRIAL_SPLIT_DATACLASS]
    status := .success
    start_time := some 0
    end_time := some 1 }

/-- The example Round of the sources. -/
def SOME_ROUND_DATACLASS : RoundDataclass :=
  { round_number := 0
    trials := [SOME_TRIAL_DATACLASS] }

/-- The example Client of the sources. -/
def SOME_CLIENT_DATACLASS : ClientDataclass :=
  { client_name := DEFAULT_CLIENT
    main_metric_name := SOME_METRIC_NAME
    rounds := [SOME_ROUND_DATACLASS] }

/-- The example Project of the sources. -/
def SOME_PROJECT_DATACLASS : ProjectDataclass :=
  { project_name := DEFAULT_PROJECT
    clients := [(DEFAULT_CLIENT, SOME_CLIENT_DATACLASS)] }

/-- The example Root of the sources: the full 7-level example tree. -/
def SOME_ROOT_DATACLASS : RootDataclass :=
  { projects := [(DEFAULT_PROJECT, SOME_PROJECT_DATACLASS)] }

/-- The full 6-level example location of the sources. -/
def SOME_FULL_SCOPED_LOCATION : ScopedLocation :=
  [.str DEFAULT_PROJECT, .str DEFAULT_CLIENT, .num 0, .num 0, .num 0,
   .str SOME_METRIC_NAME]

/-- Returns the Project payload of a node, when it is one. -/
def BaseDataclass.asProject : BaseDataclass → Option ProjectDataclass
  | .project dc => some dc
  | _ => none

/-- Returns the Client payload of a node, when it is one. -/
def BaseDataclass.asClient : BaseDataclass → Option ClientDataclass
  | .client dc => some dc
  | _ => none

/-- Returns the Round payload of a node, when it is one. -/
def BaseDataclass.asRound : BaseDataclass → Option RoundDataclass
  | .round dc => some dc
  | _ => none

/-- Returns the Trial payload of a node, when it is one. -/
def BaseDataclass.asTrial : BaseDataclass → Option TrialDataclass
  | .trial dc => some dc
  | _ => none

/-- Returns the TrialSplit payload of a node, when it is one. -/
def BaseDataclass.asSplit : BaseDataclass → Option TrialSplitDataclass
  | .split dc => some dc
  | _ => none

/-- Returns the MetricResults payload of a node, when it is one. -/
def BaseDataclass.asMetric : BaseDataclass → Option MetricResultsDataclass
  | .metric dc => some dc
  | _ => none

/-- Insert into a name-keyed ordered mapping when the key is absent; an
existing entry is kept (get-or-create semantics). -/
def insertNamed (xs : List (String × α)) (k : String) (v : α) :
    List (String × α) :=
  match lookupName xs k with
  | some _ => xs
  | none => xs ++ [(k, v)]

/-- Update the value stored at a key of a name-keyed ordered mapping; a
missing key leaves the mapping unchanged. -/
def updateNamed (xs : List (String × α)) (k : String) (f : α → α) :
    List (String × α) :=
  xs.map (fun kv => if kv.1 = k then (kv.1, f kv.2) else kv)

/-- Append to an ordered sequence when the position one past the end is
addressed; existing positions are kept (get-or-create semantics). -/
def insertSeq (xs : List α) (i : Nat) (v : α) : List α :=
  if i = xs.length then xs ++ [v] else xs

/-- Update the element at a position of an ordered sequence; a position out
of range leaves the sequence unchanged. -/
def updateSeq (xs : List α) (i : Nat) (f : α → α) : List α :=
  match xs[i]? with
  | some x => xs.set i (f x)
  | none => xs

/-- Get-or-create below a TrialSplit node: a metric leaf one level down is
inserted by its metric name when absent. -/
def TrialSplitDataclass.getOrCreateSub (dc : TrialSplitDataclass) :
    List SLId → BaseDataclass → TrialSplitDataclass
  | [.str m], new =>
    match new.asMetric with
    | some mr => { dc with metric_results := insertNamed dc.metric_results m mr }
    | none => dc
  | _, _ => dc

/-- Get-or-create below a Trial node. -/
def TrialDataclass.getOrCreateSub (dc : TrialDataclass) :
    List SLId → BaseDataclass → TrialDataclass
  | [.num s], new =>
    match new.asSplit with
    | some ts =>
      { dc with validation_splits := insertSeq dc.validation_splits s ts }
    | none => dc
  | .num s :: rest, new =>
    { dc with validation_splits :=
        updateSeq dc.validation_splits s (fun ts => ts.getOrCreateSub rest new) }
  | _, _ => dc

/-- Get-or-create below a Round node. -/
def RoundDataclass.getOrCreateSub (dc : RoundDataclass) :
    List SLId → BaseDataclass → RoundDataclass
  | [.num tn], new =>
    match new.asTrial with
    | some tdc => { dc with trials := insertSeq dc.trials tn tdc }
    | none => dc
  | .num tn :: rest, new =>
    { dc with trials :=
        updateSeq dc.trials tn (fun tdc => tdc.getOrCreateSub rest new) }
  | _, _ => dc

/-- Get-or-create below a Client node. -/
def ClientDataclass.getOrCreateSub (dc : ClientDataclass) :
    List SLId → BaseDataclass → ClientDataclass
  | [.num rn], new =>
    match new.asRound with
    | some rd => { dc with rounds := insertSeq dc.rounds rn rd }
    | none => dc
  | .num rn :: rest, new =>
    { dc with rounds :=
        updateSeq dc.rounds rn (fun rd => rd.getOrCreateSub rest new) }
  | _, _ => dc

/-- Get-or-create below a Project node. -/
def ProjectDataclass.getOrCreateSub (dc : ProjectDataclass) :
    List SLId → BaseDataclass → ProjectDataclass
  | [.str c], new =>
    match new.asClient with
    | some cl => { dc with clients := insertNamed dc.clients c cl }
    | none => dc
  | .str c :: rest, new =>
    { dc with clients :=
        updateNamed dc.clients c (fun cl => cl.getOrCreateSub rest new) }
  | _, _ => dc

/-- Modelled from the spec: nodes are created lazily (get-or-create) when a
location one level beyond an existing node is first addressed; an existing
node, and a tree whose intermediate path is broken, are left unchanged. -/
def RootDataclass.getOrCreate (dc : RootDataclass) :
    ScopedLocation → BaseDataclass → RootDataclass
  | [.str p], new =>
    match new.asProject with
    | some pr => { dc with projects := insertNamed dc.projects p pr }
    | none => dc
  | .str p :: rest, new =>
    { dc with projects :=
        updateNamed dc.projects p (fun pr => pr.getOrCreateSub rest new) }
  | _, _ => dc

/-- Modelled from the spec: the execution context carries the current
ScopedLocation and a handle to the repository, modelled by the in-memory
Root tree; the scoped logger is modelled separately. -/
structure AutoMLContext where
  loc : ScopedLocation
  repo : RootDataclass
deriving DecidableEq, Repr

/-- Modelled from the spec: push_attr verifies the pushed dataclass is of
the kind matching depth len(loc)+1, get-or-creates it in the repository at
the location extended by the dataclass id, and returns a new context at
that location; the receiving context is never modified (copy-on-descend).
Pushing the Root dataclass into a context at the empty location keeps the
empty location, as the tests of the sources show. -/
def AutoMLContext.pushAttr (c : AutoMLContext) (dc : BaseDataclass) :
    Except AutoMLError AutoMLContext :=
  match dc.getId with
  | none =>
    if c.loc = [] then .ok { loc := [], repo := c.repo }
    else .error .invalidLocationError
  | some id =>
    if dc.kindOf.depth = slLen c.loc + 1 then
      .ok { loc := c.loc ++ [id]
            repo := c.repo.getOrCreate (c.loc ++ [id]) dc }
    else .error .invalidLocationError

/-- A store of context objects; addresses are positions. In-place object
mutation of the source language is modelled as replacing the cell an
address points to, so frame properties are statable. -/
abbrev CtxStore := List AutoMLContext

/-- Copy the context at an address into a fresh cell at the end of the
store, as context.copy() does. -/
def ctxCopy (st : CtxStore) (i : Nat) : CtxStore :=
  match st[i]? with
  | some c => st ++ [c]
  | none => st

/-- Call push_attr on the context at an address; the fresh context it
returns is stored in a new cell at the end of the store, and no existing
cell is written. -/
def ctxPushAttrAt (st : CtxStore) (i : Nat) (dc : BaseDataclass) :
    Except AutoMLError CtxStore :=
  match st[i]? with
  | none => .error .notFoundError
  | some c =>
    match c.pushAttr dc with
    | .ok c1 => .ok (st ++ [c1])
    | .error e => .error e

/-- A store of location objects; addresses are positions. -/
abbrev SLStore := List ScopedLocation

/-- Copy the location at an address into a fresh cell at the end of the
store, as copy.copy and copy.deepcopy do. -/
def slCopy (st : SLStore) (i : Nat) : SLStore :=
  match st[i]? with
  | some L => st ++ [L]
  | none => st

/-- Pop the location at an address in place, as location.pop() mutates its
receiver; fails when the location there is already empty. -/
def slPopAt (st : SLStore) (i : Nat) : Option SLStore :=
  match st[i]? with
  | none => none
  | some L =>
    match slPop L with
    | none => none
    | some L2 => some (st.set i L2)


/-- Modelled from the spec: the state of scoped logging. Each active scoped
log handler is a location paired with the lines it has captured so far; a
handler captures every line emitted at its own location or below it, so a
broader ancestor accumulates its descendants' lines. -/
structure ScopedLogger where
  handlers : List (ScopedLocation × List String)
deriving DecidableEq, Repr

/-- Emit one log line at a location: every active handler whose location is
a prefix of the emission location appends the line to its capture. -/
def emitLog (st : ScopedLogger) (loc : ScopedLocation) (msg : String) :
    ScopedLogger :=
  { handlers := st.handlers.map
      (fun h => if slIsPrefixOf h.1 loc then (h.1, h.2 ++ [msg]) else h) }

/-- Find the capture of the handler at a location. -/
def readLogAux : List (ScopedLocation × List String) → ScopedLocation →
    List String
  | [], _ => []
  | (l, lines) :: rest, loc => if l = loc then lines else readLogAux rest loc

/-- Read back the lines captured by the scoped handler at a location, as
read_scoped_logger_file does. -/
def readLog (st : ScopedLogger) (loc : ScopedLocation) : List String :=
  readLogAux st.handlers loc

/-- The nested-logging scenario of the sources' tests: both handlers are
active from the start; each trace event is a line emitted either at the
child context (first component true) or at the ancestor context (false). -/
def runTrace (c0loc c1loc : ScopedLocation) (st : ScopedLogger) :
    List (Bool × String) → ScopedLogger
  | [] => st
  | (atChild, msg) :: rest =>
    runTrace c0loc c1loc
      (emitLog st (if atChild then c1loc else c0loc) msg) rest

/-- The initial logging state of the nested scenario: the ancestor handler
and the child handler, both active with empty captures. -/
def initLogger (c0loc c1loc : ScopedLocation) : ScopedLogger :=
  { handlers := [(c0loc, []), (c1loc, [])] }


/-- Modelled from the spec: the tree of JSON-expressible values the dict
form of a dataclass is made of: null, booleans, integers, strings, ordered
sequences and nested mappings. -/
inductive JsonValue where
  | jnull
  | jbool (b : Bool)
  | jnum (n : Int)
  | jstr (s : String)
  | jarr (xs : List JsonValue)
  | jobj (fields : List (String × JsonValue))

/-- JSON escaping of one character: the quote and the backslash are
escaped. -/
def escapeChar (c : Char) : List Char :=
  if c = '"' ∨ c = '\\' then ['\\', c] else [c]

/-- Encode a string as a quoted JSON string literal. -/
def encodeString (s : String) : String :=
  "\"" ++ String.mk (s.data.foldr (fun c acc => escapeChar c ++ acc) []) ++ "\""

/-- Encode an integer in decimal JSON form. -/
def encodeInt (n : Int) : String :=
  if n < 0 then "-" ++ toString n.natAbs else toString n.natAbs

mutual

/-- Encode a JSON value as text. -/
def JsonValue.encode : JsonValue → String
  | .jnull => "null"
  | .jbool true => "true"
  | .jbool false => "false"
  | .jnum n => encodeInt n
  | .jstr s => encodeString s
  | .jarr xs => "[" ++ encodeItems xs ++ "]"
  | .jobj fs => "\x7b" ++ encodeMembers fs ++ "\x7d"

/-- Encode the comma-separated items of a JSON array. -/
def encodeItems : List JsonValue → String
  | [] => ""
  | [x] => x.encode
  | x :: xs => x.encode ++ "," ++ encodeItems xs

/-- Encode the comma-separated members of a JSON object. -/
def encodeMembers : List (String × JsonValue) → String
  | [] => ""
  | [(k, v)] => encodeString k ++ ":" ++ v.encode
  | (k, v) :: fs => encodeString k ++ ":" ++ v.encode ++ "," ++ encodeMembers fs

end

/-- Modelled from the spec: to_json writes the dict form out as JSON
text. -/
def to_json (d : JsonValue) : String := JsonValue.encode d

/-- Parse the remainder of a JSON string literal after its opening quote,
unescaping escaped characters; returns the content and the rest of the
input. -/
def parseStringChars : List Char → Option (List Char × List Char)
  | [] => none
  | '"' :: rest => some ([], rest)
  | '\\' :: c :: rest =>
    match parseStringChars rest with
    | some (content, rem) => some (c :: content, rem)
    | none => none
  | c :: rest =>
    match parseStringChars rest with
    | some (content, rem) => some (c :: content, rem)
    | none => none

/-- Split leading decimal digits off a character list. -/
def spanDigits : List Char → List Char × List Char
  | [] => ([], [])
  | c :: rest =>
    if c.isDigit then
      let p := spanDigits rest
      (c :: p.1, p.2)
    else ([], c :: rest)

/-- The numeric value of a list of decimal digits. -/
def digitsToNat : List Char → Nat → Nat
  | [], acc => acc
  | c :: rest, acc => digitsToNat rest (acc * 10 + (c.toNat - 48))

mutual

/-- Fueled recursive-descent parser for one JSON value at the head of the
input; returns the value and the unconsumed input. -/
def parseVal : Nat → List Char → Option (JsonValue × List Char)
  | 0, _ => none
  | fuel + 1, cs =>
    match cs with
    | 'n' :: 'u' :: 'l' :: 'l' :: rest => some (.jnull, rest)
    | 't' :: 'r' :: 'u' :: 'e' :: rest => some (.jbool true, rest)
    | 'f' :: 'a' :: 'l' :: 's' :: 'e' :: rest => some (.jbool false, rest)
    | '"' :: rest =>
      match parseStringChars rest with
      | some (content, rem) => some (.jstr (String.mk content), rem)
      | none => none
    | '[' :: ']' :: rest => some (.jarr [], rest)
    | '[' :: rest =>
      match parseItems fuel rest with
      | some (xs, rem) => some (.jarr xs, rem)
      | none => none
    | '\x7b' :: '\x7d' :: rest => some (.jobj [], rest)
    | '\x7b' :: rest =>
      match parseMembers fuel rest with
      | some (fs, rem) => some (.jobj fs, rem)
      | none => none
    | '-' :: rest =>
      match spanDigits rest with
      | ([], _) => none
      | (ds, rem) => some (.jnum (-(digitsToNat ds 0 : Int)), rem)
    | _ =>
      match spanDigits cs with
      | ([], _) => none
      | (ds, rem) => some (.jnum ((digitsToNat ds 0 : Int)), rem)

/-- Fueled parser for the items of a JSON array up to the closing
bracket. -/
def parseItems : Nat → List Char → Option (List JsonValue × List Char)
  | 0, _ => none
  | fuel + 1, cs =>
    match parseVal fuel cs with
    | none => none
    | some (v, rest) =>
      match rest with
      | ',' :: rest2 =>
        match parseItems fuel rest2 with
        | some (xs, rem) => some (v :: xs, rem)
        | none => none
      | ']' :: rest2 => some ([v], rest2)
      | _ => none

/-- Fueled parser for the members of a JSON object up to the closing
brace. -/
def parseMembers : Nat → List Char →
    Option (List (String × JsonValue) × List Char)
  | 0, _ => none
  | fuel + 1, cs =>
    match cs with
    | '"' :: rest =>
      match parseStringChars rest with
      | none => none
      | some (key, rest2) =>
        match rest2 with
        | ':' :: rest3 =>
          match parseVal fuel rest3 with
          | none => none
          | some (v, rest4) =>
            match rest4 with
            | ',' :: rest5 =>
              match parseMembers fuel rest5 with
              | some (fs, rem) => some ((String.mk key, v) :: fs, rem)
              | none => none
            | '\x7d' :: rest5 => some ([(String.mk key, v)], rest5)
            | _ => none
        | _ => none
    | _ => none

end

/-- Modelled from the spec: from_json parses JSON text back into the dict
form; the whole input must be consumed. -/
def from_json (s : String) : Option JsonValue :=
  match parseVal (s.length + 1) s.data with
  | some (v, []) => some v
  | _ => none

/-- Encode an optional timestamp: null when absent. -/
def optNatToJson : Option Nat → JsonValue
  | none => .jnull
  | some t => .jnum t

/-- Encode the status enum by its name. -/
def statusToJson : TrialStatus → JsonValue
  | .planned => .jstr "PLANNED"
  | .running => .jstr "RUNNING"
  | .success => .jstr "SUCCESS"
  | .failed => .jstr "FAILED"
  | .aborted => .jstr "ABORTED"

/-- The JSON payload of an object field. -/
def jField (fs : List (String × JsonValue)) (k : String) : Option JsonValue :=
  lookupName fs k

/-- The object members of a JSON value, when it is an object. -/
def JsonValue.asObj : JsonValue → Option (List (String × JsonValue))
  | .jobj fs => some fs
  | _ => none

/-- The items of a JSON value, when it is an array. -/
def JsonValue.asArr : JsonValue → Option (List JsonValue)
  | .jarr xs => some xs
  | _ => none

/-- The string payload of a JSON value, when it is a string. -/
def JsonValue.asStr : JsonValue → Option String
  | .jstr s => some s
  | _ => none

/-- The integer payload of a JSON value, when it is a number. -/
def JsonValue.asInt : JsonValue → Option Int
  | .jnum n => some n
  | _ => none

/-- The natural payload of a JSON value, when it is a number at least 0. -/
def JsonValue.asNat : JsonValue → Option Nat
  | .jnum n => if 0 ≤ n then some n.toNat else none
  | _ => none

/-- Decode an optional timestamp. -/
def jsonToOptNat : JsonValue → Option (Option Nat)
  | .jnull => some none
  | .jnum n => if 0 ≤ n then some (some n.toNat) else none
  | _ => none

/-- The boolean payload of a JSON value, when it is a boolean. -/
def JsonValue.asBool : JsonValue → Option Bool
  | .jbool b => some b
  | _ => none

/-- Decode the status enum from its name. -/
def jsonToStatus : JsonValue → Option TrialStatus
  | .jstr "PLANNED" => some .planned
  | .jstr "RUNNING" => some .running
  | .jstr "SUCCESS" => some .success
  | .jstr "FAILED" => some .failed
  | .jstr "ABORTED" => some .aborted
  | _ => none

/-- Modelled from the spec: the dict form of a MetricResults leaf. -/
def MetricResultsDataclass.to_dict (dc : MetricResultsDataclass) : JsonValue :=
  .jobj [("metric_name", .jstr dc.metric_name),
         ("validation_values", .jarr (dc.validation_values.map (fun v => .jnum v))),
         ("train_values", .jarr (dc.train_values.map (fun v => .jnum v))),
         ("higher_score_is_better", .jbool dc.higher_score_is_better)]

/-- Modelled from the spec: from_dict for a MetricResults leaf. -/
def MetricResultsDataclass.from_dict (j : JsonValue) :
    Option MetricResultsDataclass := do
  let fs ← j.asObj
  let name ← (← jField fs "metric_name").asStr
  let vv ← (← jField fs "validation_values").asArr
  let vvals ← vv.mapM JsonValue.asInt
  let tv ← (← jField fs "train_values").asArr
  let tvals ← tv.mapM JsonValue.asInt
  let hib ← (← jField fs "higher_score_is_better").asBool
  pure { metric_name := name, validation_values := vvals,
         train_values := tvals, higher_score_is_better := hib }

/-- Modelled from the spec: the dict form of a TrialSplit; nested dataclass
mappings become nested dicts, the enum becomes its name, timestamps stay
numbers or null. -/
def TrialSplitDataclass.to_dict (dc : TrialSplitDataclass) : JsonValue :=
  .jobj [("split_number", .jnum dc.split_number),
         ("metric_results", .jobj (dc.metric_results.map (fun kv => (kv.1, kv.2.to_dict)))),
         ("status", statusToJson dc.status),
         ("start_time", optNatToJson dc.start_time),
         ("end_time", optNatToJson dc.end_time)]

/-- Modelled from the spec: from_dict for a TrialSplit; the keys of the
metric-results mapping are restored into the children through set_id. -/
def TrialSplitDataclass.from_dict (j : JsonValue) :
    Option TrialSplitDataclass := do
  let fs ← j.asObj
  let sn ← (← jField fs "split_number").asNat
  let mrj ← (← jField fs "metric_results").asObj
  let mrs ← mrj.mapM (fun kv => do
    let mr ← MetricResultsDataclass.from_dict kv.2
    pure (kv.1, { mr with metric_name := kv.1 }))
  let st ← jsonToStatus ((jField fs "status").getD .jnull)
  let t0 ← jsonToOptNat ((jField fs "start_time").getD .jnull)
  let t1 ← jsonToOptNat ((jField fs "end_time").getD .jnull)
  pure { split_number := sn, metric_results := mrs, status := st,
         start_time := t0, end_time := t1 }

/-- Modelled from the spec: the dict form of a Trial. -/
def TrialDataclass.to_dict (dc : TrialDataclass) : JsonValue :=
  .jobj [("trial_number", .jnum dc.trial_number),
         ("hyperparams", .jobj (dc.hyperparams.map (fun kv => (kv.1, JsonValue.jnum kv.2)))),
         ("validation_splits", .jarr (dc.validation_splits.map (fun ts => ts.to_dict))),
         ("status", statusToJson dc.status),
         ("start_time", optNatToJson dc.start_time),
         ("end_time", optNatToJson dc.end_time)]

/-- Modelled from the spec: from_dict for a Trial. -/
def TrialDataclass.from_dict (j : JsonValue) : Option TrialDataclass := do
  let fs ← j.asObj
  let tn ← (← jField fs "trial_number").asNat
  let hpj ← (← jField fs "hyperparams").asObj
  let hps ← hpj.mapM (fun kv => do
    let v ← kv.2.asInt
    pure (kv.1, v))
  let vsj ← (← jField fs "validation_splits").asArr
  let vss ← vsj.mapM TrialSplitDataclass.from_dict
  let st ← jsonToStatus ((jField fs "status").getD .jnull)
  let t0 ← jsonToOptNat ((jField fs "start_time").getD .jnull)
  let t1 ← jsonToOptNat ((jField fs "end_time").getD .jnull)
  pure { trial_number := tn, hyperparams := hps, validation_splits := vss,
         status := st, start_time := t0, end_time := t1 }

/-- Modelled from the spec: the dict form of a Round. -/
def RoundDataclass.to_dict (dc : RoundDataclass) : JsonValue :=
  .jobj [("round_number", .jnum dc.round_number),
         ("trials", .jarr (dc.trials.map (fun tr => tr.to_dict)))]

/-- Modelled from the spec: from_dict for a Round. -/
def RoundDataclass.from_dict (j : JsonValue) : Option RoundDataclass := do
  let fs ← j.asObj
  let rn ← (← jField fs "round_number").asNat
  let tj ← (← jField fs "trials").asArr
  let trs ← tj.mapM TrialDataclass.from_dict
  pure { round_number := rn, trials := trs }

/-- Modelled from the spec: the dict form of a Client. -/
def ClientDataclass.to_dict (dc : ClientDataclass) : JsonValue :=
  .jobj [("client_name", .jstr dc.client_name),
         ("main_metric_name", .jstr dc.main_metric_name),
         ("rounds", .jarr (dc.rounds.map (fun rd => rd.to_dict)))]

/-- Modelled from the spec: from_dict for a Client. -/
def ClientDataclass.from_dict (j : JsonValue) : Option ClientDataclass := do
  let fs ← j.asObj
  let cn ← (← jField fs "client_name").asStr
  let mm ← (← jField fs "main_metric_name").asStr
  let rj ← (← jField fs "rounds").asArr
  let rds ← rj.mapM RoundDataclass.from_dict
  pure { client_name := cn, main_metric_name := mm, rounds := rds }

/-- Modelled from the spec: the dict form of a Project. -/
def ProjectDataclass.to_dict (dc : ProjectDataclass) : JsonValue :=
  .jobj [("project_name", .jstr dc.project_name),
         ("clients", .jobj (dc.clients.map (fun kv => (kv.1, kv.2.to_dict))))]

/-- Modelled from the spec: from_dict for a Project; the keys of the
clients mapping are restored into the children through set_id. -/
def ProjectDataclass.from_dict (j : JsonValue) : Option ProjectDataclass := do
  let fs ← j.asObj
  let pn ← (← jField fs "project_name").asStr
  let cj ← (← jField fs "clients").asObj
  let cls ← cj.mapM (fun kv => do
    let cl ← ClientDataclass.from_dict kv.2
    pure (kv.1, { cl with client_name := kv.1 }))
  pure { project_name := pn, clients := cls }

/-- Modelled from the spec: the dict form of the Root: the whole tree. -/
def RootDataclass.to_dict (dc : RootDataclass) : JsonValue :=
  .jobj [("projects", .jobj (dc.projects.map (fun kv => (kv.1, kv.2.to_dict))))]

/-- Modelled from the spec: from_dict for the Root; the keys of the
projects mapping are restored into the children through set_id. -/
def RootDataclass.from_dict (j : JsonValue) : Option RootDataclass := do
  let fs ← j.asObj
  let pj ← (← jField fs "projects").asObj
  let prs ← pj.mapM (fun kv => do
    let pr ← ProjectDataclass.from_dict kv.2
    pure (kv.1, { pr with project_name := kv.1 }))
  pure { projects := prs }


/-- From the source neuraxle/logging/warnings.py: the module flag
SILENCE_WARNING starts false; the module state is passed explicitly here. -/
def SILENCE_WARNING_INITIAL : Bool := false

/-- From the source: silence_all_warnings() sets SILENCE_WARNING to true,
whatever it was. -/
def silence_all_warnings (_flag : Bool) : Bool := true

/-- From the source: warn_deprecated_class(self, replacement_class) warns
exactly when the flag is unset and self.replacement_class is not None, and
returns self; the first component tells whether a warning was emitted. The
presence of the replacement_class attribute of self is passed as a boolean
and the warning text is not modelled. -/
def warn_deprecated_class (silence : Bool) (self : α)
    (selfReplacementClassIsSome : Bool) : Bool × α :=
  (!silence && selfReplacementClassIsSome, self)

/-- From the source: warn_deprecated_arg(self, arg_name, default_value,
value, replacement_argument_name, replacement_class) warns exactly when the
flag is unset and the supplied value differs from the declared default, and
returns self. Argument values are modelled as integers; the name arguments
only shape the warning text, which is not modelled. -/
def warn_deprecated_arg (silence : Bool) (self : α)
    (default_value value : Int) : Bool × α :=
  (!silence && !(default_value == value), self)

/-- The public operations of the warnings module; the module exposes no
operation that resets the flag. -/
inductive WarningsOp where
  | silenceAllWarnings
  | warnDeprecatedClass (selfReplacementClassIsSome : Bool)
  | warnDeprecatedArg (default_value value : Int)

/-- The module flag after one call. -/
def warningsStep (flag : Bool) : WarningsOp → Bool
  | .silenceAllWarnings => silence_all_warnings flag
  | .warnDeprecatedClass _ => flag
  | .warnDeprecatedArg _ _ => flag

/-- Whether one call emits a warning. -/
def warningsEmits (flag : Bool) : WarningsOp → Bool
  | .silenceAllWarnings => false
  | .warnDeprecatedClass hr => (warn_deprecated_class flag () hr).1
  | .warnDeprecatedArg dv v => (warn_deprecated_arg flag () dv v).1

/-- Run a sequence of module calls from a flag state: the final flag and
the per-call emission record. -/
def runWarnings (flag : Bool) : List WarningsOp → Bool × List Bool
  | [] => (flag, [])
  | op :: ops =>
    ((runWarnings (warningsStep flag op) ops).1,
     warningsEmits flag op :: (runWarnings (warningsStep flag op) ops).2)


theorem validFromProject_length {L : List SLId} (h : validFromProject L = true) :
    L.length ≤ 5 := by
  match L with
  | [] => simp
  | .str _ :: rest =>
    simp only [validFromProject] at h
    match rest with
    | [] => simp
    | .num _ :: rest2 =>
      simp only [validFromClient] at h
      match rest2 with
      | [] => simp
      | .num _ :: rest3 =>
        simp only [validFromRound] at h
        match rest3 with
        | [] => simp
        | .num _ :: rest4 =>
          simp only [validFromTrial] at h
          match rest4 with
          | [] => simp
          | .str _ :: rest5 =>
            simp only [validFromSplit] at h
            match rest5 with
            | [] => simp
            | _ :: _ => simp [validFromMetric] at h

theorem slValid_length {L : ScopedLocation} (h : slValid L = true) :
    slLen L ≤ 6 := by
  match L with
  | [] => simp [slLen]
  | .str _ :: rest =>
    simp only [slValid] at h
    have := validFromProject_length h
    simp [slLen, List.length_cons]
    omega

theorem kindAtDepth_depth {d : Nat} (h : d ≤ 6) : (kindAtDepth d).depth = d := by
  interval_cases d <;> rfl

/-- Claim C4: slice consistency. For every valid ScopedLocation L and every
depth d with d ≤ len(L), slicing L to depth d yields a prefix location of
length exactly d, and this prefix equals the location obtained by slicing L
to the dataclass kind whose depth is d under the fixed kind-to-depth mapping
(Root=0 through MetricResults=6). -/
theorem slice_consistency (L : ScopedLocation) (d : Nat)
    (hv : slValid L = true) (hd : d ≤ slLen L) :
    slLen (slSlice L d) = d ∧
    slIsPrefixOf (slSlice L d) L = true ∧
    slSlice L d = slSliceKind L (kindAtDepth d) := by
  have hlen : slLen L ≤ 6 := slValid_length hv
  have hd6 : d ≤ 6 := le_trans hd hlen
  refine ⟨?_, ?_, ?_⟩
  · simp [slLen, slSlice, List.length_take]
    exact hd
  · clear hv hd hlen hd6
    induction L generalizing d with
    | nil => cases d <;> simp [slSlice, slIsPrefixOf]
    | cons a as ih =>
      cases d with
      | zero => simp [slSlice, slIsPrefixOf]
      | succ d2 =>
        simp only [slSlice, List.take_succ_cons, slIsPrefixOf]
        simp only [slSlice] at ih
        simp [ih d2]
  · simp [slSliceKind, slSlice, kindAtDepth_depth hd6]

theorem slice_consistency_witness :
    slValid [SLId.str "default_project", SLId.str "default_client", SLId.num 0] = true ∧
    (3 : Nat) ≤ slLen [SLId.str "default_project", SLId.str "default_client", SLId.num 0] ∧
    slLen (slSlice [SLId.str "default_project", SLId.str "default_client", SLId.num 0] 3) = 3 := by
  refine ⟨by decide, by decide, ?_⟩
  exact (slice_consistency [SLId.str "default_project", SLId.str "default_client", SLId.num 0]
    3 (by decide) (by decide)).1

theorem split_getsub_spec (dc : TrialSplitDataclass)
    (rest : List SLId) (hv : validFromSplit rest = true) :
    (dc.subExists rest = true →
      ∃ r, dc.getsub rest = .ok r ∧ r.depthOf = 5 + rest.length)
    ∧ (dc.subExists rest = false →
      dc.getsub rest = .error .notFoundError) := by
  match rest with
  | [] =>
    constructor
    · intro _
      exact ⟨.split dc, rfl, rfl⟩
    · intro h
      simp [TrialSplitDataclass.subExists] at h
  | .str m :: rest2 =>
    simp only [validFromSplit] at hv
    have hrest2 : rest2 = [] := by
      match rest2 with
      | [] => rfl
      | _ :: _ => simp [validFromMetric] at hv
    subst hrest2
    cases hs : lookupName dc.metric_results m with
    | none =>
      constructor
      · intro h
        simp [TrialSplitDataclass.subExists, hs] at h
      · intro _
        simp [TrialSplitDataclass.getsub, hs]
    | some mr =>
      constructor
      · intro _
        refine ⟨.metric mr, ?_, rfl⟩
        simp [TrialSplitDataclass.getsub, hs, MetricResultsDataclass.getsub]
      · intro h
        simp [TrialSplitDataclass.subExists, hs, validFromMetric] at h
  | .num _ :: _ => simp [validFromSplit] at hv

theorem trial_getsub_spec (dc : TrialDataclass)
    (rest : List SLId) (hv : validFromTrial rest = true) :
    (dc.subExists rest = true →
      ∃ r, dc.getsub rest = .ok r ∧ r.depthOf = 4 + rest.length)
    ∧ (dc.subExists rest = false →
      dc.getsub rest = .error .notFoundError) := by
  match rest with
  | [] =>
    constructor
    · intro _
      exact ⟨.trial dc, rfl, rfl⟩
    · intro h
      simp [TrialDataclass.subExists] at h
  | .num s :: rest2 =>
    simp only [validFromTrial] at hv
    cases hs : dc.validation_splits[s]? with
    | none =>
      constructor
      · intro h
        simp [TrialDataclass.subExists, hs] at h
      · intro _
        simp [TrialDataclass.getsub, hs]
    | some ts =>
      have ih := split_getsub_spec ts rest2 hv
      constructor
      · intro h
        simp only [TrialDataclass.subExists, hs] at h
        obtain ⟨r, hr, hd⟩ := ih.1 h
        refine ⟨r, ?_, ?_⟩
        · simp [TrialDataclass.getsub, hs, hr]
        · simp only [List.length_cons, hd]
          omega
      · intro h
        simp only [TrialDataclass.subExists, hs] at h
        simp [TrialDataclass.getsub, hs, ih.2 h]
  | .str _ :: _ => simp [validFromTrial] at hv

theorem round_getsub_spec (dc : RoundDataclass)
    (rest : List SLId) (hv : validFromRound rest = true) :
    (dc.subExists rest = true →
      ∃ r, dc.getsub rest = .ok r ∧ r.depthOf = 3 + rest.length)
    ∧ (dc.subExists rest = false →
      dc.getsub rest = .error .notFoundError) := by
  match rest with
  | [] =>
    constructor
    · intro _
      exact ⟨.round dc, rfl, rfl⟩
    · intro h
      simp [RoundDataclass.subExists] at h
  | .num t :: rest2 =>
    simp only [validFromRound] at hv
    cases hs : dc.trials[t]? with
    | none =>
      constructor
      · intro h
        simp [RoundDataclass.subExists, hs] at h
      · intro _
        simp [RoundDataclass.getsub, hs]
    | some tr =>
      have ih := trial_getsub_spec tr rest2 hv
      constructor
      · intro h
        simp only [RoundDataclass.subExists, hs] at h
        obtain ⟨r, hr, hd⟩ := ih.1 h
        refine ⟨r, ?_, ?_⟩
        · simp [RoundDataclass.getsub, hs, hr]
        · simp only [List.length_cons, hd]
          omega
      · intro h
        simp only [RoundDataclass.subExists, hs] at h
        simp [RoundDataclass.getsub, hs, ih.2 h]
  | .str _ :: _ => simp [validFromRound] at hv

theorem client_getsub_spec (dc : ClientDataclass)
    (rest : List SLId) (hv : validFromClient rest = true) :
    (dc.subExists rest = true →
      ∃ r, dc.getsub rest = .ok r ∧ r.depthOf = 2 + rest.length)
    ∧ (dc.subExists rest = false →
      dc.getsub rest = .error .notFoundError) := by
  match rest with
  | [] =>
    constructor
    · intro _
      exact ⟨.client dc, rfl, rfl⟩
    · intro h
      simp [ClientDataclass.subExists] at h
  | .num r0 :: rest2 =>
    simp only [validFromClient] at hv
    cases hs : dc.rounds[r0]? with
    | none =>
      constructor
      · intro h
        simp [ClientDataclass.subExists, hs] at h
      · intro _
        simp [ClientDataclass.getsub, hs]
    | some rd =>
      have ih := round_getsub_spec rd rest2 hv
      constructor
      · intro h
        simp only [ClientDataclass.subExists, hs] at h
        obtain ⟨r, hr, hd⟩ := ih.1 h
        refine ⟨r, ?_, ?_⟩
        · simp [ClientDataclass.getsub, hs, hr]
        · simp only [List.length_cons, hd]
          omega
      · intro h
        simp only [ClientDataclass.subExists, hs] at h
        simp [ClientDataclass.getsub, hs, ih.2 h]
  | .str _ :: _ => simp [validFromClient] at hv

theorem project_getsub_spec (dc : ProjectDataclass)
    (rest : List SLId) (hv : validFromProject rest = true) :
    (dc.subExists rest = true →
      ∃ r, dc.getsub rest = .ok r ∧ r.depthOf = 1 + rest.length)
    ∧ (dc.subExists rest = false →
      dc.getsub rest = .error .notFoundError) := by
  match rest with
  | [] =>
    constructor
    · intro _
      exact ⟨.project dc, rfl, rfl⟩
    · intro h
      simp [ProjectDataclass.subExists] at h
  | .str c :: rest2 =>
    simp only [validFromProject] at hv
    cases hs : lookupName dc.clients c with
    | none =>
      constructor
      · intro h
        simp [ProjectDataclass.subExists, hs] at h
      · intro _
        simp [ProjectDataclass.getsub, hs]
    | some cl =>
      have ih := client_getsub_spec cl rest2 hv
      constructor
      · intro h
        simp only [ProjectDataclass.subExists, hs] at h
        obtain ⟨r, hr, hd⟩ := ih.1 h
        refine ⟨r, ?_, ?_⟩
        · simp [ProjectDataclass.getsub, hs, hr]
        · simp only [List.length_cons, hd]
          omega
      · intro h
        simp only [ProjectDataclass.subExists, hs] at h
        simp [ProjectDataclass.getsub, hs, ih.2 h]
  | .num _ :: _ => simp [validFromProject] at hv

/-- Claim C2: indexed access error behaviour. For every tree root and every
valid location, root[location] returns the node at the location's depth when
every key on the path exists, and fails with NotFoundError whenever any
intermediate key is absent from its parent's child collection; a present
node whose child collection is empty is still found, so absence is
distinguished from emptiness. -/
theorem indexed_access_spec (root : RootDataclass) (loc : ScopedLocation)
    (hv : slValid loc = true) :
    (root.pathExists loc = true →
      ∃ r, root.getItem loc = .ok r ∧ r.depthOf = slLen loc)
    ∧ (root.pathExists loc = false →
      root.getItem loc = .error .notFoundError) := by
  match loc with
  | [] =>
    constructor
    · intro _
      exact ⟨.root root, rfl, rfl⟩
    · intro h
      simp [RootDataclass.pathExists] at h
  | .str p :: rest =>
    simp only [slValid] at hv
    cases hs : lookupName root.projects p with
    | none =>
      constructor
      · intro h
        simp [RootDataclass.pathExists, hs] at h
      · intro _
        simp [RootDataclass.getItem, hs]
    | some pr =>
      have ih := project_getsub_spec pr rest hv
      constructor
      · intro h
        simp only [RootDataclass.pathExists, hs] at h
        obtain ⟨r, hr, hd⟩ := ih.1 h
        refine ⟨r, ?_, ?_⟩
        · simp [RootDataclass.getItem, hs, hr]
        · simp only [slLen, List.length_cons, hd]
          omega
      · intro h
        simp only [RootDataclass.pathExists, hs] at h
        simp [RootDataclass.getItem, hs, ih.2 h]
  | .num _ :: _ => simp [slValid] at hv

theorem indexed_access_spec_witness :
    slValid SOME_FULL_SCOPED_LOCATION = true ∧
    RootDataclass.pathExists SOME_ROOT_DATACLASS SOME_FULL_SCOPED_LOCATION = true ∧
    ∃ r, RootDataclass.getItem SOME_ROOT_DATACLASS SOME_FULL_SCOPED_LOCATION = .ok r
      ∧ BaseDataclass.depthOf r = slLen SOME_FULL_SCOPED_LOCATION := by
  refine ⟨by decide, by decide, ?_⟩
  exact (indexed_access_spec SOME_ROOT_DATACLASS SOME_FULL_SCOPED_LOCATION
    (by decide)).1 (by decide)

/-- Claim C8: end-to-end example. For the concrete example tree, with the
Trial and TrialSplit started and then ended with SUCCESS, indexing the root
with the full 6-level location returns exactly the example MetricResults
object, and that location's length is 6. -/
theorem end_to_end_example :
    RootDataclass.getItem SOME_ROOT_DATACLASS SOME_FULL_SCOPED_LOCATION
      = .ok (.metric SOME_METRIC_RESULTS_DATACLASS)
    ∧ slLen SOME_FULL_SCOPED_LOCATION = 6
    ∧ (SOME_TRIAL_SPLIT_PLANNED.start 0).bind (fun ts => ts.endWith 1 .success)
      = .ok SOME_TRIAL_SPLIT_DATACLASS
    ∧ (SOME_TRIAL_PLANNED.start 0).bind (fun tr => tr.endWith 1 .success)
      = .ok SOME_TRIAL_DATACLASS := by
  refine ⟨rfl, rfl, rfl, rfl⟩

/-- Claim C3: Trial/TrialSplit lifecycle state machine. For every Trial and
TrialSplit node, start() succeeds exactly when the status is PLANNED, moving
it to RUNNING and recording a start timestamp, and end(outcome) succeeds
exactly when the status is RUNNING, moving it to SUCCESS, FAILED or ABORTED
and recording an end timestamp; start() then end(SUCCESS) succeeds once,
while calling start() twice, or end() before start(), fails with
InvalidTransitionError, and no transition leaves a terminal state. -/
theorem trial_lifecycle_state_machine
    (ts : TrialSplitDataclass) (tr : TrialDataclass)
    (t t2 : Nat) (o : TrialOutcome) :
    (((∃ y, ts.start t = .ok y) ↔ ts.status = .planned)
    ∧ (∀ y, ts.start t = .ok y → y.status = .running ∧ y.start_time = some t)
    ∧ ((∃ y, ts.endWith t o = .ok y) ↔ ts.status = .running)
    ∧ (∀ y, ts.endWith t o = .ok y →
        y.status = o.toStatus ∧ y.status.isTerminal = true ∧ y.end_time = some t)
    ∧ (∀ y, ts.start t = .ok y →
        (∃ z, y.endWith t2 o = .ok z)
        ∧ y.start t2 = .error .invalidTransitionError)
    ∧ (ts.status = .planned → ts.endWith t o = .error .invalidTransitionError)
    ∧ (ts.status.isTerminal = true →
        ts.start t = .error .invalidTransitionError
        ∧ ts.endWith t o = .error .invalidTransitionError))
    ∧ (((∃ y, tr.start t = .ok y) ↔ tr.status = .planned)
    ∧ (∀ y, tr.start t = .ok y → y.status = .running ∧ y.start_time = some t)
    ∧ ((∃ y, tr.endWith t o = .ok y) ↔ tr.status = .running)
    ∧ (∀ y, tr.endWith t o = .ok y →
        y.status = o.toStatus ∧ y.status.isTerminal = true ∧ y.end_time = some t)
    ∧ (∀ y, tr.start t = .ok y →
        (∃ z, y.endWith t2 o = .ok z)
        ∧ y.start t2 = .error .invalidTransitionError)
    ∧ (tr.status = .planned → tr.endWith t o = .error .invalidTransitionError)
    ∧ (tr.status.isTerminal = true →
        tr.start t = .error .invalidTransitionError
        ∧ tr.endWith t o = .error .invalidTransitionError)) := by
  constructor
  · refine ⟨?_, ?_, ?_, ?_, ?_, ?_, ?_⟩
    · by_cases h : ts.status = .planned <;>
        simp [TrialSplitDataclass.start, h]
    · intro y hy
      by_cases h : ts.status = .planned
      · simp only [TrialSplitDataclass.start, h, if_pos, Except.ok.injEq] at hy
        subst hy
        exact ⟨rfl, rfl⟩
      · simp [TrialSplitDataclass.start, h] at hy
    · by_cases h : ts.status = .running <;>
        simp [TrialSplitDataclass.endWith, h]
    · intro y hy
      by_cases h : ts.status = .running
      · simp only [TrialSplitDataclass.endWith, h, if_pos, Except.ok.injEq] at hy
        subst hy
        exact ⟨rfl, by cases o <;> rfl, rfl⟩
      · simp [TrialSplitDataclass.endWith, h] at hy
    · intro y hy
      by_cases h : ts.status = .planned
      · simp only [TrialSplitDataclass.start, h, if_pos, Except.ok.injEq] at hy
        subst hy
        constructor
        · simp [TrialSplitDataclass.endWith]
        · simp [TrialSplitDataclass.start]
      · simp [TrialSplitDataclass.start, h] at hy
    · intro h
      simp [TrialSplitDataclass.endWith, h]
    · intro h
      cases hs : ts.status <;> rw [hs] at h <;>
        simp [TrialStatus.isTerminal] at h <;>
        simp [TrialSplitDataclass.start, TrialSplitDataclass.endWith, hs]
  · refine ⟨?_, ?_, ?_, ?_, ?_, ?_, ?_⟩
    · by_cases h : tr.status = .planned <;>
        simp [TrialDataclass.start, h]
    · intro y hy
      by_cases h : tr.status = .planned
      · simp only [TrialDataclass.start, h, if_pos, Except.ok.injEq] at hy
        subst hy
        exact ⟨rfl, rfl⟩
      · simp [TrialDataclass.start, h] at hy
    · by_cases h : tr.status = .running <;>
        simp [TrialDataclass.endWith, h]
    · intro y hy
      by_cases h : tr.status = .running
      · simp only [TrialDataclass.endWith, h, if_pos, Except.ok.injEq] at hy
        subst hy
        exact ⟨rfl, by cases o <;> rfl, rfl⟩
      · simp [TrialDataclass.endWith, h] at hy
    · intro y hy
      by_cases h : tr.status = .planned
      · simp only [TrialDataclass.start, h, if_pos, Except.ok.injEq] at hy
        subst hy
        constructor
        · simp [TrialDataclass.endWith]
        · simp [TrialDataclass.start]
      · simp [TrialDataclass.start, h] at hy
    · intro h
      simp [TrialDataclass.endWith, h]
    · intro h
      cases hs : tr.status <;> rw [hs] at h <;>
        simp [TrialStatus.isTerminal] at h <;>
        simp [TrialDataclass.start, TrialDataclass.endWith, hs]

theorem set_concat (st : List α) (x y : α) :
    (st ++ [x]).set st.length y = st ++ [y] := by
  induction st with
  | nil => rfl
  | cons a as ih =>
    show a :: ((as ++ [x]).set as.length y) = a :: (as ++ [y])
    rw [ih]

/-- Claim C5: push independence of contexts. For every store, every context
c0 stored in it and every dataclass instance of the kind matching depth
len(c0.loc)+1, calling push_attr on c0 yields a store holding a new context
c1 whose location is c0's location extended by the dataclass id, while the
cell holding c0 is left unchanged by the call. -/
theorem push_attr_independence (st : CtxStore) (i : Nat) (c0 : AutoMLContext)
    (dc : BaseDataclass) (hc : st[i]? = some c0)
    (hk : dc.kindOf.depth = slLen c0.loc + 1) :
    ∃ id c1 st1, dc.getId = some id
      ∧ ctxPushAttrAt st i dc = .ok st1
      ∧ st1[i]? = some c0
      ∧ st1[st.length]? = some c1
      ∧ c1.loc = c0.loc ++ [id] := by
  have hi : i < st.length := (List.getElem?_eq_some_iff.mp hc).1
  have hid : ∃ id, dc.getId = some id := by
    cases dc
    case root =>
      simp [BaseDataclass.kindOf, DataclassKind.depth] at hk
    all_goals exact ⟨_, rfl⟩
  obtain ⟨id, hid⟩ := hid
  refine ⟨id, { loc := c0.loc ++ [id]
                repo := c0.repo.getOrCreate (c0.loc ++ [id]) dc },
          st ++ [{ loc := c0.loc ++ [id]
                   repo := c0.repo.getOrCreate (c0.loc ++ [id]) dc }],
          hid, ?_, ?_, ?_, rfl⟩
  · simp [ctxPushAttrAt, hc, AutoMLContext.pushAttr, hid, hk]
  · rw [List.getElem?_append_left hi]
    exact hc
  · exact List.getElem?_concat_length st _

theorem push_attr_independence_witness :
    ∃ id c1 st1, BaseDataclass.getId (.project SOME_PROJECT_DATACLASS) = some id
      ∧ ctxPushAttrAt [{ loc := [], repo := SOME_ROOT_DATACLASS }] 0
          (.project SOME_PROJECT_DATACLASS) = .ok st1
      ∧ st1[0]? = some { loc := [], repo := SOME_ROOT_DATACLASS }
      ∧ st1[1]? = some c1
      ∧ c1.loc = [] ++ [id] := by
  exact push_attr_independence [{ loc := [], repo := SOME_ROOT_DATACLASS }] 0
    { loc := [], repo := SOME_ROOT_DATACLASS }
    (.project SOME_PROJECT_DATACLASS) (by rfl) (by rfl)

/-- Claim C6: copy independence. Mutating a copy of a ScopedLocation
(popping two levels off it) or of a context (pushing an attribute on it)
never changes the original cell; after the two pops the copy's length
equals the original's length minus 2 and the copy differs from the
original. -/
theorem copy_independence :
    (∀ (st : SLStore) (i : Nat) (L : ScopedLocation),
      st[i]? = some L → 2 ≤ slLen L →
      ∃ st1 st2,
        slPopAt (slCopy st i) st.length = some st1
        ∧ slPopAt st1 st.length = some st2
        ∧ st2[i]? = some L
        ∧ ∃ c, st2[st.length]? = some c ∧ slLen c = slLen L - 2 ∧ c ≠ L)
    ∧ (∀ (cst : CtxStore) (j : Nat) (c0 : AutoMLContext) (dc : BaseDataclass)
        (st1 : CtxStore),
        cst[j]? = some c0 →
        ctxPushAttrAt (ctxCopy cst j) cst.length dc = .ok st1 →
        st1[j]? = some c0) := by
  constructor
  · intro st i L hL h2
    have hi : i < st.length := (List.getElem?_eq_some_iff.mp hL).1
    have hne : L ≠ [] := by
      intro h
      rw [h] at h2
      simp [slLen] at h2
    have hne2 : L.dropLast ≠ [] := by
      intro h
      have := congrArg List.length h
      simp [List.length_dropLast] at this
      simp [slLen] at h2
      omega
    refine ⟨st ++ [L.dropLast], st ++ [L.dropLast.dropLast], ?_, ?_, ?_, ?_⟩
    · simp only [slCopy, hL, slPopAt, List.getElem?_concat_length, slPop,
        if_neg hne, set_concat]
    · simp only [slPopAt, List.getElem?_concat_length, slPop,
        if_neg hne2, set_concat]
    · rw [List.getElem?_append_left hi]
      exact hL
    · refine ⟨L.dropLast.dropLast, List.getElem?_concat_length st _, ?_, ?_⟩
      · simp [slLen, List.length_dropLast]
        omega
      · intro h
        have := congrArg List.length h
        simp [List.length_dropLast] at this
        simp [slLen] at h2
        omega
  · intro cst j c0 dc st1 hc hp
    have hj : j < cst.length := (List.getElem?_eq_some_iff.mp hc).1
    simp only [ctxCopy, hc, ctxPushAttrAt, List.getElem?_concat_length] at hp
    cases hpc : c0.pushAttr dc with
    | ok c1 =>
      rw [hpc] at hp
      cases hp
      rw [List.append_assoc]
      rw [List.getElem?_append_left hj]
      exact hc
    | error e =>
      rw [hpc] at hp
      cases hp

theorem copy_independence_witness :
    ∃ st1 st2,
      slPopAt (slCopy [SOME_FULL_SCOPED_LOCATION] 0) 1 = some st1
      ∧ slPopAt st1 1 = some st2
      ∧ st2[0]? = some SOME_FULL_SCOPED_LOCATION
      ∧ ∃ c, st2[1]? = some c ∧ slLen c = slLen SOME_FULL_SCOPED_LOCATION - 2
          ∧ c ≠ SOME_FULL_SCOPED_LOCATION := by
  exact copy_independence.1 [SOME_FULL_SCOPED_LOCATION] 0
    SOME_FULL_SCOPED_LOCATION (by rfl) (by decide)

theorem slIsPrefixOf_refl (L : ScopedLocation) : slIsPrefixOf L L = true := by
  induction L with
  | nil => rfl
  | cons a as ih => simp [slIsPrefixOf, ih]

theorem slIsPrefixOf_length {p l : ScopedLocation}
    (h : slIsPrefixOf p l = true) : p.length ≤ l.length := by
  induction p generalizing l with
  | nil => simp
  | cons a as ih =>
    cases l with
    | nil => simp [slIsPrefixOf] at h
    | cons b bs =>
      simp only [slIsPrefixOf, Bool.and_eq_true, decide_eq_true_eq] at h
      have := ih h.2
      simp only [List.length_cons]
      omega

theorem runTrace_eq (c0loc c1loc : ScopedLocation)
    (hpre : slIsPrefixOf c0loc c1loc = true)
    (hlt : slLen c0loc < slLen c1loc) :
    ∀ (trace : List (Bool × String)) (a b : List String),
    runTrace c0loc c1loc { handlers := [(c0loc, a), (c1loc, b)] } trace
      = { handlers := [(c0loc, a ++ trace.map Prod.snd),
                       (c1loc, b ++ (trace.filter Prod.fst).map Prod.snd)] } := by
  have hnot : slIsPrefixOf c1loc c0loc = false := by
    cases hp : slIsPrefixOf c1loc c0loc
    · rfl
    · have := slIsPrefixOf_length hp
      simp [slLen] at hlt
      omega
  intro trace
  induction trace with
  | nil => intro a b; simp [runTrace]
  | cons e rest ih =>
    intro a b
    obtain ⟨atChild, msg⟩ := e
    cases atChild with
    | true =>
      show runTrace c0loc c1loc
        (emitLog { handlers := [(c0loc, a), (c1loc, b)] } c1loc msg) rest = _
      rw [show emitLog { handlers := [(c0loc, a), (c1loc, b)] } c1loc msg
          = { handlers := [(c0loc, a ++ [msg]), (c1loc, b ++ [msg])] } by
        simp [emitLog, hpre, slIsPrefixOf_refl]]
      rw [ih (a ++ [msg]) (b ++ [msg])]
      simp [List.filter_cons]
    | false =>
      show runTrace c0loc c1loc
        (emitLog { handlers := [(c0loc, a), (c1loc, b)] } c0loc msg) rest = _
      rw [show emitLog { handlers := [(c0loc, a), (c1loc, b)] } c0loc msg
          = { handlers := [(c0loc, a ++ [msg]), (c1loc, b)] } by
        simp [emitLog, hnot, slIsPrefixOf_refl]]
      rw [ih (a ++ [msg]) b]
      simp [List.filter_cons]

theorem length_filter_fst_lt {l : List (Bool × String)} {e : Bool × String}
    (he : e ∈ l) (hf : e.1 = false) :
    (l.filter Prod.fst).length < l.length := by
  induction l with
  | nil => cases he
  | cons x xs ih =>
    cases he with
    | head =>
      have hle := List.length_filter_le Prod.fst xs
      simp [List.filter_cons, hf]
      omega
    | tail _ hmem =>
      have := ih hmem
      by_cases hx : x.1 = true
      · simp [List.filter_cons, hx]
        omega
      · simp only [Bool.not_eq_true] at hx
        simp [List.filter_cons, hx]
        omega

/-- Claim C7: scoped logging containment. For nested contexts at an
ancestor location and a strictly deeper child location, each with its own
scoped log capture active simultaneously while lines are emitted at both
levels, the log read back at the ancestor contains every line captured at
the child plus the ancestor's own lines; when at least one line is emitted
at the ancestor level, the ancestor's log is strictly longer than the
child's; and a line never emitted at the child level does not appear in the
child's log. -/
theorem scoped_logging_containment (c0loc c1loc : ScopedLocation)
    (trace : List (Bool × String))
    (hpre : slIsPrefixOf c0loc c1loc = true)
    (hlt : slLen c0loc < slLen c1loc) :
    (∀ m ∈ readLog (runTrace c0loc c1loc (initLogger c0loc c1loc) trace) c1loc,
      m ∈ readLog (runTrace c0loc c1loc (initLogger c0loc c1loc) trace) c0loc)
    ∧ (∀ e ∈ trace,
      e.2 ∈ readLog (runTrace c0loc c1loc (initLogger c0loc c1loc) trace) c0loc)
    ∧ ((∃ e ∈ trace, e.1 = false) →
      (readLog (runTrace c0loc c1loc (initLogger c0loc c1loc) trace) c1loc).length
      < (readLog (runTrace c0loc c1loc (initLogger c0loc c1loc) trace) c0loc).length)
    ∧ (∀ m, (∀ e ∈ trace, e.1 = true → e.2 ≠ m) →
      m ∉ readLog (runTrace c0loc c1loc (initLogger c0loc c1loc) trace) c1loc) := by
  have hne : c0loc ≠ c1loc := by
    intro h
    rw [h] at hlt
    exact Nat.lt_irrefl _ hlt
  have hrun := runTrace_eq c0loc c1loc hpre hlt trace [] []
  rw [show initLogger c0loc c1loc
      = { handlers := [(c0loc, []), (c1loc, [])] } from rfl, hrun]
  have h0 : readLog { handlers :=
      [(c0loc, [] ++ trace.map Prod.snd),
       (c1loc, [] ++ (trace.filter Prod.fst).map Prod.snd)] } c0loc
      = trace.map Prod.snd := by
    simp [readLog, readLogAux]
  have h1 : readLog { handlers :=
      [(c0loc, [] ++ trace.map Prod.snd),
       (c1loc, [] ++ (trace.filter Prod.fst).map Prod.snd)] } c1loc
      = (trace.filter Prod.fst).map Prod.snd := by
    simp [readLog, readLogAux, hne]
  rw [h0, h1]
  refine ⟨?_, ?_, ?_, ?_⟩
  · intro m hm
    simp only [List.mem_map, List.mem_filter] at hm
    obtain ⟨e, ⟨he, _⟩, hsnd⟩ := hm
    exact List.mem_map.mpr ⟨e, he, hsnd⟩
  · intro e he
    exact List.mem_map_of_mem Prod.snd he
  · intro ⟨e, he, hf⟩
    simp only [List.length_map]
    exact length_filter_fst_lt he hf
  · intro m hm hmem
    simp only [List.mem_map, List.mem_filter] at hmem
    obtain ⟨e, ⟨he, hfst⟩, hsnd⟩ := hmem
    exact hm e he hfst hsnd

theorem scoped_logging_containment_witness :
    slIsPrefixOf [] [SLId.str DEFAULT_PROJECT] = true
    ∧ slLen ([] : ScopedLocation) < slLen [SLId.str DEFAULT_PROJECT]
    ∧ ((∃ e ∈ [(false, "c0 begin"), (true, "c1 work"), (false, "c0 end")], e.1 = false) →
      (readLog (runTrace [] [SLId.str DEFAULT_PROJECT]
        (initLogger [] [SLId.str DEFAULT_PROJECT])
        [(false, "c0 begin"), (true, "c1 work"), (false, "c0 end")])
        [SLId.str DEFAULT_PROJECT]).length
      < (readLog (runTrace [] [SLId.str DEFAULT_PROJECT]
        (initLogger [] [SLId.str DEFAULT_PROJECT])
        [(false, "c0 begin"), (true, "c1 work"), (false, "c0 end")]) []).length) := by
  refine ⟨by decide, by decide, ?_⟩
  exact (scoped_logging_containment [] [SLId.str DEFAULT_PROJECT]
    [(false, "c0 begin"), (true, "c1 work"), (false, "c0 end")]
    (by decide) (by decide)).2.2.1

/-- Claim C1: serialization round-trip. For the full 7-level example tree,
from_dict(to_dict(root)) is structurally equal to root; the equality also
holds when the dict form is additionally passed through a JSON encode and
decode cycle before from_dict; and the MetricResults node recovered by
indexing the restored root at the full 6-level location equals the original
MetricResults dataclass. -/
theorem serialization_round_trip :
    RootDataclass.from_dict (RootDataclass.to_dict SOME_ROOT_DATACLASS)
      = some SOME_ROOT_DATACLASS
    ∧ (from_json (to_json (RootDataclass.to_dict SOME_ROOT_DATACLASS))).bind
        RootDataclass.from_dict = some SOME_ROOT_DATACLASS
    ∧ ((from_json (to_json (RootDataclass.to_dict SOME_ROOT_DATACLASS))).bind
        RootDataclass.from_dict).bind
        (fun root => match root.getItem SOME_FULL_SCOPED_LOCATION with
          | .ok (.metric mr) => some mr
          | _ => none) = some SOME_METRIC_RESULTS_DATACLASS := by
  refine ⟨by decide, by decide, by decide⟩

theorem runWarnings_append (f : Bool) (l1 l2 : List WarningsOp) :
    (runWarnings f (l1 ++ l2)).1 = (runWarnings (runWarnings f l1).1 l2).1 := by
  induction l1 generalizing f with
  | nil => rfl
  | cons op rest ih => simp [runWarnings, ih]

theorem runWarnings_silenced (ops : List WarningsOp) :
    (runWarnings true ops).1 = true
    ∧ ∀ e ∈ (runWarnings true ops).2, e = false := by
  induction ops with
  | nil =>
    refine ⟨rfl, ?_⟩
    intro e he
    cases he
  | cons op rest ih =>
    have hstep : warningsStep true op = true := by cases op <;> rfl
    have hemit : warningsEmits true op = false := by cases op <;> rfl
    refine ⟨?_, ?_⟩
    · simp only [runWarnings, hstep]
      exact ih.1
    · intro e he
      simp only [runWarnings, hstep, hemit] at he
      cases he with
      | head => rfl
      | tail _ hmem => exact ih.2 e hmem

/-- Claim C9: warn_deprecated_arg emits a deprecation warning if and only
if warnings have not been silenced and the supplied value differs from the
declared default value; when the value equals the default it returns
silently, and in every case it returns the receiver unchanged. -/
theorem warn_deprecated_arg_spec (α : Type) (self : α) (silence : Bool)
    (default_value value : Int) :
    (warn_deprecated_arg silence self default_value value).2 = self
    ∧ ((warn_deprecated_arg silence self default_value value).1 = true
        ↔ (silence = false ∧ default_value ≠ value)) := by
  refine ⟨rfl, ?_⟩
  cases silence <;> simp [warn_deprecated_arg]

/-- Claim C10: once silence_all_warnings() has been called, the module
flag SILENCE_WARNING is true and stays true through every further sequence
of module calls, so no subsequent call to warn_deprecated_class or
warn_deprecated_arg, with any arguments, ever emits a warning; the
operations of the module include nothing that re-enables warnings. -/
theorem silence_is_permanent (pre post : List WarningsOp) :
    (runWarnings false (pre ++ [WarningsOp.silenceAllWarnings])).1 = true
    ∧ (runWarnings false (pre ++ WarningsOp.silenceAllWarnings :: post)).1 = true
    ∧ ∀ e ∈ (runWarnings
        (runWarnings false (pre ++ [WarningsOp.silenceAllWarnings])).1 post).2,
        e = false := by
  have h1 : (runWarnings false (pre ++ [WarningsOp.silenceAllWarnings])).1 = true := by
    rw [runWarnings_append]
    rfl
  refine ⟨h1, ?_, ?_⟩
  · rw [show pre ++ WarningsOp.silenceAllWarnings :: post
        = (pre ++ [WarningsOp.silenceAllWarnings]) ++ post by simp]
    rw [runWarnings_append, h1]
    exact (runWarnings_silenced post).1
  · rw [h1]
    exact (runWarnings_silenced post).2

theorem trial_lifecycle_state_machine_witness :
    ∃ y, TrialSplitDataclass.start SOME_TRIAL_SPLIT_PLANNED 0 = .ok y := by
  exact (trial_lifecycle_state_machine SOME_TRIAL_SPLIT_PLANNED
    SOME_TRIAL_PLANNED 0 1 .success).1.1.mpr (by decide)
